import Mathlib

/-!
Verification of the lease state machine of `observatory_presence.py`
(Observatory Presence / Reservation system).

The stored state is a JSON dict with optional keys; we model it as a
structure with `Option` fields.  Timestamps are stored as ISO strings in
the source; we model a stored timestamp as either a parseable value
(`TSVal.good t`, with `t` the denoted instant in whole seconds) or an
unparsable raw string (`TSVal.bad raw`).  Python truthiness of a stored
string is `TSVal.truthy` (the empty string is falsy).  Floats from
`parse_float` are modelled as rationals, with Python `round`
(half-to-even) modelled by `pyRound`.
-/

namespace ObsPresence

/-- A stored timestamp string: either parseable (denoting instant `t`,
in seconds) or an unparsable raw string. -/
inductive TSVal where
  | good (t : Int)
  | bad (raw : String)
deriving DecidableEq, Repr

/-- Python truthiness of the stored timestamp string: a parseable ISO
string is non-empty, an unparsable one is truthy iff non-empty. -/
def TSVal.truthy : TSVal → Bool
  | .good _ => true
  | .bad raw => raw ≠ ""

/-- Truthiness of `state.get(key)` for a timestamp-valued key: absent is
falsy, present follows string truthiness. -/
def truthyTS : Option TSVal → Bool
  | none => false
  | some v => v.truthy

/-- Truthiness of an optional string request field (`none` = absent). -/
def truthyStr : Option String → Bool
  | none => false
  | some u => u ≠ ""

/-- `datetime.fromisoformat` with the broad except fallback of the source
(`last = utcnow()`): an unparsable stored value is treated as the current
time. -/
def parseTS (v : TSVal) (now : Int) : Int :=
  match v with
  | .good t => t
  | .bad _ => now

/-- One host telemetry record, as built by the `/host_status` handler. -/
structure HostRec where
  hostId : String
  ts : TSVal
  uptimeSec : Int
  cpuPercent : ℚ
  memPercent : ℚ
  diskCPercent : ℚ
  osVersion : String
deriving DecidableEq, Repr

/-- The persisted/in-memory `state` dict.  Each key of the JSON record is
an `Option` field (`none` = key absent). -/
structure St where
  occupied : Option Bool
  user : Option String
  target : Option String
  start : Option TSVal
  last_heartbeat : Option TSVal
  planned_end : Option TSVal
  planned_hours : Option ℚ
  planned_minutes : Option Int
  hosts : Option (List (String × HostRec))
deriving DecidableEq, Repr

/-- Truthiness of the stored occupied flag: an absent key counts as
`False`. -/
def occupiedB (s : St) : Bool := s.occupied.getD false

/-- The empty dict `{}` produced when the backing file is missing or
fails to load. -/
def emptyState : St :=
  { occupied := none, user := none, target := none, start := none,
    last_heartbeat := none, planned_end := none, planned_hours := none,
    planned_minutes := none, hosts := none }

/-- The state after `state.clear()` followed by setting the occupied key
to `False` (both manual release and the stale-session sweeper produce it). -/
def clearedState : St :=
  { occupied := some false, user := none, target := none, start := none,
    last_heartbeat := none, planned_end := none, planned_hours := none,
    planned_minutes := none, hosts := none }

/-- `parse_int(value, default, min_value, max_value)`: `none` models a
value that raises on `int(...)` (absent or non-numeric). -/
def parse_int (value : Option Int) (default : Int)
    (min_value max_value : Option Int) : Int :=
  match value with
  | none => default
  | some v0 =>
    let v1 := match min_value with
      | some m => if v0 < m then m else v0
      | none => v0
    match max_value with
    | some m => if v1 > m then m else v1
    | none => v1

/-- `parse_float(value, default, min_value, max_value)`; floats modelled
as rationals. -/
def parse_float (value : Option ℚ) (default : ℚ)
    (min_value max_value : Option ℚ) : ℚ :=
  match value with
  | none => default
  | some v0 =>
    let v1 := match min_value with
      | some m => if v0 < m then m else v0
      | none => v0
    match max_value with
    | some m => if v1 > m then m else v1
    | none => v1

/-- Python `round` (half-to-even rounding) on a rational. -/
def pyRound (q : ℚ) : Int :=
  let f := Int.floor q
  let frac := q - f
  if frac < 1/2 then f
  else if 1/2 < frac then f + 1
  else if f % 2 = 0 then f else f + 1

/-- The `planned_end` derivation inside `/start`: an explicit (truthy)
`planned_end` is taken verbatim; otherwise positive hours take precedence
over positive minutes; a non-positive total is ignored.  Returns the
`planned_end` to store (if any) together with the `planned_hours` /
`planned_minutes` keys to record (if any).  Durations are in minutes and
timestamps in seconds, so the derived end is `now + 60 * total_minutes`. -/
def computePlannedEnd (planned_hours : ℚ) (planned_minutes : Int)
    (planned_end_iso : Option TSVal) (now : Int) :
    Option TSVal × Option ℚ × Option Int :=
  if truthyTS planned_end_iso then
    (planned_end_iso, none, none)
  else if planned_hours ≠ 0 ∧ 0 < planned_hours then
    let total_minutes := pyRound (planned_hours * 60)
    (if 0 < total_minutes then some (TSVal.good (now + 60 * total_minutes))
     else none,
     some planned_hours, none)
  else if planned_minutes ≠ 0 ∧ 0 < planned_minutes then
    let total_minutes := planned_minutes
    (if 0 < total_minutes then some (TSVal.good (now + 60 * total_minutes))
     else none,
     none, some planned_minutes)
  else (none, none, none)

/-- Outcome of the `/start` handler: HTTP 200 with the new state, or
HTTP 409 (`Bereits belegt`) carrying the existing state snapshot. -/
inductive StartOut where
  | ok (st : St)
  | conflict (st : St)
deriving DecidableEq, Repr

/-- The successful branch of `/start`: sets `occupied`, `user`, `target`,
`start = last_heartbeat = now`, and stores the planned-end keys only when
computed (absent keys keep their previous values, as dict writes do). -/
def startState (s : St) (user target : String) (planned_hours : ℚ)
    (planned_minutes : Int) (planned_end_iso : Option TSVal) (now : Int) : St :=
  let pe := computePlannedEnd planned_hours planned_minutes planned_end_iso now
  { s with
    occupied := some true
    user := some user
    target := some target
    start := some (TSVal.good now)
    last_heartbeat := some (TSVal.good now)
    planned_hours := match pe.2.1 with
      | some h => some h
      | none => s.planned_hours
    planned_minutes := match pe.2.2 with
      | some m => some m
      | none => s.planned_minutes
    planned_end := match pe.1 with
      | some v => some v
      | none => s.planned_end }

/-- The `/start` handler (acquire).  `user` and `target` are the values
after the request-level fallback chains; `planned_minutes_raw` and
`planned_hours_raw` are the raw inputs fed to `parse_int` / `parse_float`
(`none` = absent or unparsable); `now` is `now_iso()`. -/
def start (s : St) (user target : String) (planned_minutes_raw : Option Int)
    (planned_hours_raw : Option ℚ) (planned_end_iso : Option TSVal)
    (now : Int) : StartOut × St :=
  let planned_minutes := parse_int planned_minutes_raw 0 (some 0) none
  let planned_hours := parse_float planned_hours_raw 0 (some 0) none
  if occupiedB s then
    (StartOut.conflict s, s)
  else
    let s1 := startState s user target planned_hours planned_minutes
      planned_end_iso now
    (StartOut.ok s1, s1)

/-- One acquire request: the resolved inputs of a `/start` call. -/
structure StartReq where
  user : String
  target : String
  pm : Option Int
  ph : Option ℚ
  pe : Option TSVal
  now : Int
deriving Repr

/-- Apply one acquire request. -/
def startReq (s : St) (r : StartReq) : StartOut × St :=
  start s r.user r.target r.pm r.ph r.pe r.now

/-- Run a sequence of acquire requests, collecting the responses. -/
def runStarts : St → List StartReq → List StartOut × St
  | s, [] => ([], s)
  | s, r :: rest =>
    let p := startReq s r
    let q := runStarts p.2 rest
    (p.1 :: q.1, q.2)

/-- Outcome of the `/heartbeat` handler: HTTP 200, HTTP 404
(`Kein aktiver Nutzer`), or HTTP 403 (`Nicht autorisierter Benutzer`). -/
inductive HbOut where
  | ok
  | noActive
  | wrongHolder
deriving DecidableEq, Repr

/-- The `/heartbeat` handler (renew).  `user` is the request's user field
(`none` = absent; `some ""` = present but empty, which is falsy). -/
def heartbeat (s : St) (user : Option String) (now : Int) : HbOut × St :=
  if ¬ occupiedB s then
    (HbOut.noActive, s)
  else if truthyStr user = true ∧ user ≠ s.user then
    (HbOut.wrongHolder, s)
  else
    (HbOut.ok, { s with last_heartbeat := some (TSVal.good now) })

/-- Outcome of the `/release` handler: always HTTP 200 `ok`. -/
inductive RelOut where
  | ok
deriving DecidableEq, Repr

/-- The `/release` handler: `state.clear()` then set the occupied key to
`False`, independent of the previous state. -/
def release (_s : St) : RelOut × St := (RelOut.ok, clearedState)

/-- One tick of the background `cleaner_loop`: if the state is occupied
and `last_heartbeat` is truthy, parse it (unparsable = now) and
force-release when `now - last > HEARTBEAT_TIMEOUT` seconds. -/
def cleaner_tick (timeout now : Int) (s : St) : St :=
  if occupiedB s = true ∧ truthyTS s.last_heartbeat = true then
    let last := match s.last_heartbeat with
      | some v => parseTS v now
      | none => now
    if now - last > timeout then clearedState else s
  else s

/-- Default of the `HEARTBEAT_TIMEOUT` configuration value (`int` over the
environment string, default 90, with `ValueError` falling back to 90). -/
def HEARTBEAT_TIMEOUT_default : Int := 90

/-- Set a key in the `hosts` mapping (dict assignment on an assoc list). -/
def assocSet (m : List (String × HostRec)) (k : String) (v : HostRec) :
    List (String × HostRec) :=
  match m with
  | [] => [(k, v)]
  | (k', v') :: rest =>
    if k' = k then (k, v) :: rest else (k', v') :: assocSet rest k v

/-- The `/host_status` handler body (after the JSON-shape check): builds
the clamped record and stores it under the resolved host id.  `hostIdRaw`
is the stripped `hostId` field (`none` = absent or blank, falling back to
`remote_addr`); `ts` is the raw `ts` field (`none` = absent/empty). -/
def host_status (s : St) (hostIdRaw : Option String) (remoteAddr : String)
    (ts : Option TSVal) (uptime : Option Int) (cpu mem dsk : Option ℚ)
    (osVersion : Option String) (now : Int) : St :=
  let host_id := hostIdRaw.getD remoteAddr
  let record : HostRec :=
    { hostId := host_id
      ts := ts.getD (TSVal.good now)
      uptimeSec := parse_int uptime 0 (some 0) none
      cpuPercent := parse_float cpu 0 (some 0) (some 100)
      memPercent := parse_float mem 0 (some 0) (some 100)
      diskCPercent := parse_float dsk 0 (some 0) (some 100)
      osVersion := osVersion.getD "" }
  let hostsMap := s.hosts.getD []
  { s with hosts := some (assocSet hostsMap host_id record) }

/-- `_ensure_init`: add `occupied = False` when the key is absent. -/
def ensure_init (s : St) : St :=
  if s.occupied = none then { s with occupied := some false } else s

/-- The backing record at process start: missing file, unparsable file,
or a well-formed stored state. -/
inductive Backing where
  | missing
  | corrupt
  | stored (s : St)

/-- The module-level load: `json.load` with `except: state = {}` and the
missing-file branch also giving `{}`. -/
def loadState : Backing → St
  | .missing => emptyState
  | .corrupt => emptyState
  | .stored s => s

/-- The `occupied` flag shown by the index view:
`s.get` with the occupied key and default `False`. -/
def snapshot_occupied (s : St) : Bool := s.occupied.getD false

/-- One operation of the lease system, with its resolved inputs. -/
inductive Op where
  | acquire (user target : String) (pm : Option Int) (ph : Option ℚ)
      (pe : Option TSVal) (now : Int)
  | renew (user : Option String) (now : Int)
  | rel
  | sweep (timeout now : Int)
  | telemetry (hostIdRaw : Option String) (remoteAddr : String)
      (ts : Option TSVal) (uptime : Option Int) (cpu mem dsk : Option ℚ)
      (osVersion : Option String) (now : Int)

/-- The state transition of each operation. -/
def applyOp : Op → St → St
  | .acquire u tgt pm ph pe now, s => (start s u tgt pm ph pe now).2
  | .renew u now, s => (heartbeat s u now).2
  | .rel, s => (release s).2
  | .sweep timeout now, s => cleaner_tick timeout now s
  | .telemetry hid ra ts up cpu mem dsk osv now, s =>
      host_status s hid ra ts up cpu mem dsk osv now

/-- The stored `start` timestamp, when parseable, does not lie in the
future of the instant `now` at which an operation runs. -/
def startLE (s : St) (now : Int) : Prop :=
  match s.start with
  | some (TSVal.good t) => t ≤ now
  | _ => True

/-- Boundary conditions under which an operation runs: an acquire carries
a non-empty resolved requester identity, and the clock reading of a renew is
not earlier than the stored lease start. -/
def opOk : Op → St → Prop
  | .acquire u _ _ _ _ _, _ => u ≠ ""
  | .renew _ now, s => startLE s now
  | _, _ => True

/-- Lower bound on the clock reading of an operation by an instant `t`
(only a renew reads the clock into `last_heartbeat`). -/
def opClockLB : Op → Int → Prop
  | .renew _ now, t => t ≤ now
  | _, _ => True

/-- The lease state invariant: a free state has all holder-scoped keys
absent; an occupied state has a non-empty holder and parseable
`start ≤ last_heartbeat`. -/
def LeaseInv (s : St) : Prop :=
  (s.occupied.getD false = false →
    s.user = none ∧ s.target = none ∧ s.start = none ∧
    s.last_heartbeat = none ∧ s.planned_end = none) ∧
  (s.occupied.getD false = true →
    (match s.user with
     | some u => u ≠ ""
     | none => False) ∧
    (match s.start, s.last_heartbeat with
     | some (TSVal.good t1), some (TSVal.good t2) => t1 ≤ t2
     | _, _ => False))

/-! ### Helper lemmas -/

@[simp] theorem startState_occupied (s : St) (u tgt : String) (ph : ℚ)
    (pm : Int) (pe : Option TSVal) (now : Int) :
    (startState s u tgt ph pm pe now).occupied = some true := rfl

@[simp] theorem startState_user (s : St) (u tgt : String) (ph : ℚ)
    (pm : Int) (pe : Option TSVal) (now : Int) :
    (startState s u tgt ph pm pe now).user = some u := rfl

@[simp] theorem startState_target (s : St) (u tgt : String) (ph : ℚ)
    (pm : Int) (pe : Option TSVal) (now : Int) :
    (startState s u tgt ph pm pe now).target = some tgt := rfl

@[simp] theorem startState_start (s : St) (u tgt : String) (ph : ℚ)
    (pm : Int) (pe : Option TSVal) (now : Int) :
    (startState s u tgt ph pm pe now).start = some (TSVal.good now) := rfl

@[simp] theorem startState_last_heartbeat (s : St) (u tgt : String) (ph : ℚ)
    (pm : Int) (pe : Option TSVal) (now : Int) :
    (startState s u tgt ph pm pe now).last_heartbeat =
      some (TSVal.good now) := rfl

@[simp] theorem startState_hosts (s : St) (u tgt : String) (ph : ℚ)
    (pm : Int) (pe : Option TSVal) (now : Int) :
    (startState s u tgt ph pm pe now).hosts = s.hosts := rfl

@[simp] theorem host_status_occupied (s : St) (hid : Option String)
    (ra : String) (ts : Option TSVal) (up : Option Int) (cpu mem dsk : Option ℚ)
    (osv : Option String) (now : Int) :
    (host_status s hid ra ts up cpu mem dsk osv now).occupied = s.occupied := rfl

@[simp] theorem host_status_user (s : St) (hid : Option String)
    (ra : String) (ts : Option TSVal) (up : Option Int) (cpu mem dsk : Option ℚ)
    (osv : Option String) (now : Int) :
    (host_status s hid ra ts up cpu mem dsk osv now).user = s.user := rfl

@[simp] theorem host_status_target (s : St) (hid : Option String)
    (ra : String) (ts : Option TSVal) (up : Option Int) (cpu mem dsk : Option ℚ)
    (osv : Option String) (now : Int) :
    (host_status s hid ra ts up cpu mem dsk osv now).target = s.target := rfl

@[simp] theorem host_status_start (s : St) (hid : Option String)
    (ra : String) (ts : Option TSVal) (up : Option Int) (cpu mem dsk : Option ℚ)
    (osv : Option String) (now : Int) :
    (host_status s hid ra ts up cpu mem dsk osv now).start = s.start := rfl

@[simp] theorem host_status_last_heartbeat (s : St) (hid : Option String)
    (ra : String) (ts : Option TSVal) (up : Option Int) (cpu mem dsk : Option ℚ)
    (osv : Option String) (now : Int) :
    (host_status s hid ra ts up cpu mem dsk osv now).last_heartbeat =
      s.last_heartbeat := rfl

@[simp] theorem host_status_planned_end (s : St) (hid : Option String)
    (ra : String) (ts : Option TSVal) (up : Option Int) (cpu mem dsk : Option ℚ)
    (osv : Option String) (now : Int) :
    (host_status s hid ra ts up cpu mem dsk osv now).planned_end =
      s.planned_end := rfl

theorem conflict_when_occupied (s : St) (r : StartReq)
    (h : occupiedB s = true) : startReq s r = (StartOut.conflict s, s) := by
  simp [startReq, start, h]

theorem runStarts_when_occupied (s : St) (reqs : List StartReq)
    (h : occupiedB s = true) :
    runStarts s reqs = (reqs.map fun _ => StartOut.conflict s, s) := by
  induction reqs with
  | nil => simp [runStarts]
  | cons r rest ih => simp [runStarts, conflict_when_occupied s r h, ih]

theorem start_free (s : St) (u tgt : String) (pm : Option Int)
    (ph : Option ℚ) (pe : Option TSVal) (now : Int)
    (h : occupiedB s = false) :
    start s u tgt pm ph pe now =
      (StartOut.ok (startState s u tgt (parse_float ph 0 (some 0) none)
          (parse_int pm 0 (some 0) none) pe now),
        startState s u tgt (parse_float ph 0 (some 0) none)
          (parse_int pm 0 (some 0) none) pe now) := by
  simp [start, h]

theorem leaseInv_cleared : LeaseInv clearedState := by
  constructor
  · intro _
    exact ⟨rfl, rfl, rfl, rfl, rfl⟩
  · intro h
    simp [clearedState, occupiedB] at h

theorem cleaner_tick_cases (timeout now : Int) (s : St) :
    cleaner_tick timeout now s = s ∨
      cleaner_tick timeout now s = clearedState := by
  unfold cleaner_tick
  by_cases hg : occupiedB s = true ∧ truthyTS s.last_heartbeat = true
  · rw [if_pos hg]
    dsimp only
    split
    · right; rfl
    · left; rfl
  · rw [if_neg hg]
    left; rfl

/-! ### Sample states used by witnesses and counterexamples -/

/-- A reachable occupied state: acquire by alice at instant 0. -/
def occSample : St :=
  { occupied := some true, user := some "alice", target := some "M31",
    start := some (TSVal.good 0), last_heartbeat := some (TSVal.good 0),
    planned_end := none, planned_hours := none, planned_minutes := none,
    hosts := none }

/-- A sample host telemetry record. -/
def hostSample : HostRec :=
  { hostId := "h1", ts := TSVal.good 1, uptimeSec := 10, cpuPercent := 5,
    memPercent := 5, diskCPercent := 5, osVersion := "w10" }

/-- A free state that still carries host telemetry (reachable: init, then
a `/host_status` report, with no lease held). -/
def freeWithHosts : St :=
  { clearedState with hosts := some [("h1", hostSample)] }

/-- An occupied state whose `last_heartbeat` key is absent. -/
def occNoHb : St := { occSample with last_heartbeat := none }

/-! ### C1: mutual exclusion on acquisition -/

/-- Claim C1: for every sequence of Acquire calls with no intervening
Release, only the first call against a free lease succeeds; every
subsequent Acquire returns a Conflict rejection carrying the existing
lease snapshot, and the state (in particular `user` and `start`) is left
exactly as the first successful call wrote it. -/
theorem acquire_mutual_exclusion (s : St) (r : StartReq)
    (reqs : List StartReq) (hfree : occupiedB s = false) :
    ∃ s1 : St, startReq s r = (StartOut.ok s1, s1) ∧
      s1.user = some r.user ∧ s1.start = some (TSVal.good r.now) ∧
      occupiedB s1 = true ∧
      runStarts s1 reqs = (reqs.map fun _ => StartOut.conflict s1, s1) := by
  refine ⟨startState s r.user r.target (parse_float r.ph 0 (some 0) none)
    (parse_int r.pm 0 (some 0) none) r.pe r.now, ?_, rfl, rfl, rfl, ?_⟩
  · simpa [startReq] using start_free s r.user r.target r.pm r.ph r.pe r.now hfree
  · exact runStarts_when_occupied _ reqs rfl

/-- Witness for C1 at concrete inputs: alice acquires the free cleared
state, then an acquire by bob is rejected with the snapshot. -/
theorem acquire_mutual_exclusion_witness :
    ∃ s1 : St,
      startReq clearedState ⟨"alice", "M31", none, none, none, 100⟩ =
        (StartOut.ok s1, s1) ∧
      s1.user = some "alice" ∧ s1.start = some (TSVal.good 100) ∧
      occupiedB s1 = true ∧
      runStarts s1 [⟨"bob", "", none, none, none, 101⟩] =
        (([⟨"bob", "", none, none, none, 101⟩] : List StartReq).map
          fun _ => StartOut.conflict s1, s1) :=
  acquire_mutual_exclusion clearedState ⟨"alice", "M31", none, none, none, 100⟩
    [⟨"bob", "", none, none, none, 101⟩] rfl

/-! ### C2: sweeper expiry -/

/-- Claim C2: on a sweeper tick against an occupied state with a stored
`last_heartbeat`, the lease is force-released (to the cleared state,
`occupied = false`) exactly when `now` minus the parsed heartbeat exceeds
the configured timeout; an unparsable stored heartbeat is treated as
`now`, so (for a non-negative timeout, default 90) it never triggers
expiry on that tick. -/
theorem sweeper_expiry_iff (timeout now : Int) (s : St)
    (ht : 0 ≤ timeout) (hocc : occupiedB s = true) :
    (∀ t, s.last_heartbeat = some (TSVal.good t) →
      cleaner_tick timeout now s =
        if now - t > timeout then clearedState else s) ∧
    (∀ raw, s.last_heartbeat = some (TSVal.bad raw) →
      cleaner_tick timeout now s = s) ∧
    occupiedB clearedState = false ∧ 0 ≤ HEARTBEAT_TIMEOUT_default := by
  refine ⟨?_, ?_, rfl, by decide⟩
  · intro t hlh
    simp [cleaner_tick, hocc, hlh, truthyTS, TSVal.truthy, parseTS]
  · intro raw hlh
    by_cases hraw : raw = ""
    · subst hraw
      simp [cleaner_tick, hlh, truthyTS, TSVal.truthy]
    · simp [cleaner_tick, hocc, hlh, truthyTS, TSVal.truthy, hraw, parseTS]
      intro hx
      exact absurd hx (not_lt.mpr ht)

/-- Witness for C2: at timeout 90, a heartbeat last seen at instant 0 is
stale at instant 200 and the tick clears the lease. -/
theorem sweeper_expiry_iff_witness :
    cleaner_tick 90 200 occSample =
      if (200 : Int) - 0 > 90 then clearedState else occSample :=
  (sweeper_expiry_iff 90 200 occSample (by decide) rfl).1 0 rfl

/-! ### C3: renew (heartbeat) semantics -/

/-- Claim C3: Renew fails with NoActiveLease when the state is not
occupied; it fails with WrongHolder exactly when a non-empty requester id
differing from the stored holder is supplied (an absent or empty id skips
the identity check); every failure leaves the state unchanged; on success
only `last_heartbeat` is set to `now`. -/
theorem renew_semantics (s : St) (user : Option String) (now : Int) :
    (occupiedB s = false → heartbeat s user now = (HbOut.noActive, s)) ∧
    (occupiedB s = true → ∀ u, user = some u → u ≠ "" → some u ≠ s.user →
      heartbeat s user now = (HbOut.wrongHolder, s)) ∧
    (occupiedB s = true → truthyStr user = false →
      heartbeat s user now =
        (HbOut.ok, { s with last_heartbeat := some (TSVal.good now) })) ∧
    (occupiedB s = true → ∀ u, user = some u → some u = s.user →
      heartbeat s user now =
        (HbOut.ok, { s with last_heartbeat := some (TSVal.good now) })) := by
  refine ⟨?_, ?_, ?_, ?_⟩
  · intro hfree
    simp [heartbeat, hfree]
  · intro hocc u hu hne hdiff
    subst hu
    simp [heartbeat, hocc, truthyStr, hne, hdiff]
  · intro hocc hfalsy
    simp [heartbeat, hocc, hfalsy]
  · intro hocc u hu heq
    subst hu
    simp [heartbeat, hocc, heq]

/-- Witness for C3: renewing the lease held by alice as bob is rejected
with WrongHolder and the state is unchanged. -/
theorem renew_semantics_witness :
    heartbeat occSample (some "bob") 5 = (HbOut.wrongHolder, occSample) :=
  (renew_semantics occSample (some "bob") 5).2.1 rfl "bob" rfl
    (by decide) (by decide)

/-! ### C4: release idempotence -/

/-- Counterexample to claim C4 as stated: on a free state that still
carries host telemetry, Release succeeds but does not leave the stored
state unchanged (the `hosts` key is wiped by `state.clear()`). -/
theorem release_not_state_preserving_cex :
    occupiedB freeWithHosts = false ∧
    (release freeWithHosts).1 = RelOut.ok ∧
    (release freeWithHosts).2 ≠ freeWithHosts := by
  refine ⟨rfl, rfl, ?_⟩
  intro h
  have hh := congrArg St.hosts h
  simp [release, clearedState, freeWithHosts] at hh

/-- Claim C4 as amended: Release on an already-free lease returns success
and produces the canonical cleared free state (so the lease fields stay
cleared, though auxiliary keys such as host telemetry are wiped too); when
the free state is exactly the cleared state it is a no-op; Release
composed with Release equals a single Release. -/
theorem release_idempotent_amended (s : St) (_hfree : occupiedB s = false) :
    (release s).1 = RelOut.ok ∧
    (release s).2 = clearedState ∧
    occupiedB (release s).2 = false ∧
    (release (release s).2).2 = (release s).2 ∧
    (s = clearedState → (release s).2 = s) := by
  refine ⟨rfl, rfl, rfl, rfl, ?_⟩
  intro h
  rw [h]
  rfl

/-- Witness for the amended C4 on the cleared free state. -/
theorem release_idempotent_amended_witness :
    (release clearedState).1 = RelOut.ok ∧
    (release clearedState).2 = clearedState ∧
    occupiedB (release clearedState).2 = false ∧
    (release (release clearedState).2).2 = (release clearedState).2 ∧
    (clearedState = clearedState → (release clearedState).2 = clearedState) :=
  release_idempotent_amended clearedState rfl

/-! ### C5: plannedEnd computation -/

theorem startState_planned_end (s : St) (u tgt : String) (ph : ℚ) (pm : Int)
    (pe : Option TSVal) (now : Int) :
    (startState s u tgt ph pm pe now).planned_end =
      match (computePlannedEnd ph pm pe now).1 with
      | some v => some v
      | none => s.planned_end := rfl

theorem startState_planned_hours (s : St) (u tgt : String) (ph : ℚ) (pm : Int)
    (pe : Option TSVal) (now : Int) :
    (startState s u tgt ph pm pe now).planned_hours =
      match (computePlannedEnd ph pm pe now).2.1 with
      | some h => some h
      | none => s.planned_hours := rfl

theorem startState_planned_minutes (s : St) (u tgt : String) (ph : ℚ)
    (pm : Int) (pe : Option TSVal) (now : Int) :
    (startState s u tgt ph pm pe now).planned_minutes =
      match (computePlannedEnd ph pm pe now).2.2 with
      | some m => some m
      | none => s.planned_minutes := rfl

theorem computePlannedEnd_verbatim (ph : ℚ) (pm : Int) (pe : TSVal)
    (now : Int) (h : pe.truthy = true) :
    computePlannedEnd ph pm (some pe) now = (some pe, none, none) := by
  simp [computePlannedEnd, truthyTS, h]

theorem computePlannedEnd_hours (ph : ℚ) (pm : Int) (now : Int) (h : 0 < ph) :
    computePlannedEnd ph pm none now =
      (if 0 < pyRound (ph * 60)
       then some (TSVal.good (now + 60 * pyRound (ph * 60))) else none,
       some ph, none) := by
  simp [computePlannedEnd, truthyTS, h, h.ne']

theorem computePlannedEnd_nonpos (ph : ℚ) (pm : Int) (now : Int)
    (hh : ¬ 0 < ph) (hm : ¬ 0 < pm) :
    computePlannedEnd ph pm none now = (none, none, none) := by
  simp [computePlannedEnd, truthyTS, hh, hm]

theorem parse_float_pos (q : ℚ) (h : 0 < q) :
    parse_float (some q) 0 (some 0) none = q := by
  simp [parse_float, not_lt.mpr h.le]

theorem parse_float_npos (q : ℚ) (h : q ≤ 0) :
    ¬ 0 < parse_float (some q) 0 (some 0) none := by
  unfold parse_float
  dsimp only
  split
  · exact lt_irrefl 0
  · exact not_lt.mpr h

theorem parse_int_nonneg (m : Int) (h : 0 ≤ m) :
    parse_int (some m) 0 (some 0) none = m := by
  simp [parse_int, not_lt.mpr h]

theorem parse_int_npos (m : Int) (h : m ≤ 0) :
    ¬ 0 < parse_int (some m) 0 (some 0) none := by
  unfold parse_int
  dsimp only
  split
  · exact lt_irrefl 0
  · exact not_lt.mpr h

theorem pyRound_two_hours : pyRound ((2 : ℚ) * 60) = 120 := by
  norm_num [pyRound]

/-- Claim C5: an explicit (truthy) planned end timestamp is stored
verbatim and overrides any duration; when both a positive hours and a
positive minutes duration are given, the hours value is used (and only
the `planned_hours` key is recorded); a non-positive duration leaves
`planned_end` unset; acquiring with `planned_hours = 2` at instant `now`
stores `planned_end = now + 120` minutes (`now + 60 * 120` seconds). -/
theorem planned_end_computation (s : St) (u tgt : String) (now : Int)
    (hfree : occupiedB s = false) :
    (∀ (pm : Option Int) (ph : Option ℚ) (pe : TSVal), pe.truthy = true →
      (start s u tgt pm ph (some pe) now).2.planned_end = some pe) ∧
    (∀ (hq : ℚ) (m : Int), 0 < hq → 0 < m →
      (start s u tgt (some m) (some hq) none now).2.planned_end =
        (if 0 < pyRound (hq * 60)
         then some (TSVal.good (now + 60 * pyRound (hq * 60)))
         else s.planned_end) ∧
      (start s u tgt (some m) (some hq) none now).2.planned_hours = some hq ∧
      (start s u tgt (some m) (some hq) none now).2.planned_minutes =
        s.planned_minutes) ∧
    (∀ (m : Int) (hq : ℚ), m ≤ 0 → hq ≤ 0 →
      (start s u tgt (some m) (some hq) none now).2.planned_end =
        s.planned_end) ∧
    (start s u tgt none (some 2) none now).2.planned_end =
      some (TSVal.good (now + 60 * 120)) := by
  refine ⟨?_, ?_, ?_, ?_⟩
  · intro pm ph pe hpe
    rw [start_free s u tgt pm ph (some pe) now hfree]
    simp [startState_planned_end, computePlannedEnd_verbatim _ _ _ _ hpe]
  · intro hq m hhq hm
    rw [start_free s u tgt (some m) (some hq) none now hfree]
    have hph : parse_float (some hq) 0 (some 0) none = hq := parse_float_pos hq hhq
    refine ⟨?_, ?_, ?_⟩
    · simp only [startState_planned_end, hph, computePlannedEnd_hours _ _ _ hhq]
      by_cases hpos : 0 < pyRound (hq * 60)
      · simp [hpos]
      · simp [hpos]
    · simp [startState_planned_hours, hph, computePlannedEnd_hours _ _ _ hhq]
    · simp [startState_planned_minutes, hph, computePlannedEnd_hours _ _ _ hhq]
  · intro m hq hm hhq
    rw [start_free s u tgt (some m) (some hq) none now hfree]
    simp [startState_planned_end,
      computePlannedEnd_nonpos _ _ _ (parse_float_npos hq hhq)
        (parse_int_npos m hm)]
  · rw [start_free s u tgt none (some 2) none now hfree]
    have h2 : parse_float (some 2) 0 (some 0) none = 2 :=
      parse_float_pos 2 (by norm_num)
    simp only [startState_planned_end, h2,
      computePlannedEnd_hours _ _ _ (by norm_num : (0:ℚ) < 2), pyRound_two_hours]
    norm_num

/-- Witness for C5: acquiring the cleared state with two planned hours at
instant 1000 stores `planned_end` at instant `1000 + 7200`. -/
theorem planned_end_computation_witness :
    (start clearedState "alice" "M31" none (some 2) none 1000).2.planned_end =
      some (TSVal.good (1000 + 60 * 120)) :=
  (planned_end_computation clearedState "alice" "M31" 1000 rfl).2.2.2

/-! ### C6: lease state invariant -/

/-- Claim C6: the lease invariant — a free state has all holder-scoped
keys (`user`, `target`, `start`, `last_heartbeat`, `planned_end`) absent,
and an occupied state has a non-empty holder with parseable
`start ≤ last_heartbeat` — is preserved by every operation (acquire,
renew, release, sweeper tick, telemetry report), given a non-empty
resolved acquire identity and clock readings not earlier than the stored
lease start. -/
theorem lease_invariant_preserved (op : Op) (s : St)
    (hinv : LeaseInv s) (hok : opOk op s) : LeaseInv (applyOp op s) := by
  cases op with
  | acquire u tgt pm ph pe now =>
    have hu : u ≠ "" := hok
    by_cases hocc : occupiedB s = true
    · have happ : applyOp (Op.acquire u tgt pm ph pe now) s = s := by
        simp [applyOp, start, hocc]
      rw [happ]
      exact hinv
    · have hfree : occupiedB s = false := by
        revert hocc
        cases occupiedB s <;> simp
      have happ : applyOp (Op.acquire u tgt pm ph pe now) s =
          startState s u tgt (parse_float ph 0 (some 0) none)
            (parse_int pm 0 (some 0) none) pe now := by
        simp [applyOp, start_free s u tgt pm ph pe now hfree]
      rw [happ]
      constructor
      · intro h
        simp [occupiedB] at h
      · intro _
        refine ⟨?_, ?_⟩
        · simp only [startState_user]
          exact hu
        · simp only [startState_start, startState_last_heartbeat]
          exact le_refl now
  | renew u now =>
    by_cases hocc : occupiedB s = true
    · by_cases hw : truthyStr u = true ∧ u ≠ s.user
      · have happ : applyOp (Op.renew u now) s = s := by
          simp [applyOp, heartbeat, hocc, hw.1, hw.2]
        rw [happ]
        exact hinv
      · have happ : applyOp (Op.renew u now) s =
            { s with last_heartbeat := some (TSVal.good now) } := by
          simp [applyOp, heartbeat, hocc, hw]
        rw [happ]
        obtain ⟨h1, h2⟩ := hinv
        have h2' := h2 hocc
        have hok' : startLE s now := hok
        constructor
        · intro hcontra
          have hx : occupiedB s = false := hcontra
          simp [hocc] at hx
        · intro _
          refine ⟨h2'.1, ?_⟩
          have hst := h2'.2
          rcases hs1 : s.start with _ | v
          · rw [hs1] at hst
            simp at hst
          · rcases v with t1 | raw
            · unfold startLE at hok'
              rw [hs1] at hok'
              simp only at hok'
              simpa using hok'
            · rw [hs1] at hst
              simp at hst
    · have hfree : occupiedB s = false := by
        revert hocc
        cases occupiedB s <;> simp
      have happ : applyOp (Op.renew u now) s = s := by
        simp [applyOp, heartbeat, hfree]
      rw [happ]
      exact hinv
  | rel =>
    exact leaseInv_cleared
  | sweep timeout now =>
    rcases cleaner_tick_cases timeout now s with h | h
    · show LeaseInv (cleaner_tick timeout now s)
      rw [h]
      exact hinv
    · show LeaseInv (cleaner_tick timeout now s)
      rw [h]
      exact leaseInv_cleared
  | telemetry hid ra ts up cpu mem dsk osv now =>
    exact hinv

/-- Witness for C6: acquiring the cleared free state as alice preserves
the invariant. -/
theorem lease_invariant_preserved_witness :
    LeaseInv (applyOp (Op.acquire "alice" "M31" none none none 5)
      clearedState) :=
  lease_invariant_preserved (Op.acquire "alice" "M31" none none none 5)
    clearedState leaseInv_cleared
    (show ("alice" : String) ≠ "" by decide)

/-! ### C7: startup resilience of the lease store -/

/-- Claim C7: loading with a missing or corrupt backing record yields the
empty state, which after init reports not occupied; a well-formed stored
record with `occupied = true` is kept unchanged by init and reported as
occupied after restart. -/
theorem load_startup_resilience :
    snapshot_occupied (ensure_init (loadState Backing.missing)) = false ∧
    snapshot_occupied (ensure_init (loadState Backing.corrupt)) = false ∧
    ∀ r : St, r.occupied = some true →
      ensure_init (loadState (Backing.stored r)) = r ∧
      snapshot_occupied (ensure_init (loadState (Backing.stored r))) =
        true := by
  refine ⟨rfl, rfl, ?_⟩
  intro r hr
  have hinit : ensure_init r = r := by
    simp [ensure_init, hr]
  refine ⟨hinit, ?_⟩
  simp [loadState, hinit, snapshot_occupied, hr]

/-- Witness for C7: restart with the stored occupied sample state keeps
it occupied. -/
theorem load_startup_resilience_witness :
    ensure_init (loadState (Backing.stored occSample)) = occSample ∧
    snapshot_occupied (ensure_init (loadState (Backing.stored occSample))) =
      true :=
  load_startup_resilience.2.2 occSample rfl

/-! ### C8: heartbeat monotonicity and frame -/

/-- Claim C8: while the lease is held, the parsed `last_heartbeat` is
monotonically non-decreasing across operations (given clock readings not
earlier than it); and after Acquire followed by Renew by the same holder
with a strictly later clock, `last_heartbeat` strictly increases while
`user` and `start` are unchanged. -/
theorem heartbeat_monotone_frame :
    (∀ (op : Op) (s : St) (t : Int),
      occupiedB s = true → occupiedB (applyOp op s) = true →
      s.last_heartbeat = some (TSVal.good t) → opClockLB op t →
      ∃ t', (applyOp op s).last_heartbeat = some (TSVal.good t') ∧
        t ≤ t') ∧
    (∀ (s0 : St) (u tgt : String) (pm : Option Int) (ph : Option ℚ)
        (pe : Option TSVal) (now1 now2 : Int),
      occupiedB s0 = false → now1 < now2 →
      heartbeat (start s0 u tgt pm ph pe now1).2 (some u) now2 =
        (HbOut.ok, { (start s0 u tgt pm ph pe now1).2 with
          last_heartbeat := some (TSVal.good now2) }) ∧
      (start s0 u tgt pm ph pe now1).2.last_heartbeat =
        some (TSVal.good now1) ∧
      (start s0 u tgt pm ph pe now1).2.user = some u ∧
      (start s0 u tgt pm ph pe now1).2.start = some (TSVal.good now1)) := by
  constructor
  · intro op s t hheld hheld' hlh hclk
    cases op with
    | acquire u tgt pm ph pe now =>
      have happ : applyOp (Op.acquire u tgt pm ph pe now) s = s := by
        simp [applyOp, start, hheld]
      rw [happ]
      exact ⟨t, hlh, le_refl t⟩
    | renew u now =>
      by_cases hw : truthyStr u = true ∧ u ≠ s.user
      · have happ : applyOp (Op.renew u now) s = s := by
          simp [applyOp, heartbeat, hheld, hw.1, hw.2]
        rw [happ]
        exact ⟨t, hlh, le_refl t⟩
      · have happ : applyOp (Op.renew u now) s =
            { s with last_heartbeat := some (TSVal.good now) } := by
          simp [applyOp, heartbeat, hheld, hw]
        rw [happ]
        exact ⟨now, rfl, hclk⟩
    | rel =>
      exfalso
      have hx : occupiedB clearedState = true := hheld'
      simp [occupiedB, clearedState] at hx
    | sweep timeout now =>
      rcases cleaner_tick_cases timeout now s with h | h
      · have happ : applyOp (Op.sweep timeout now) s = s := h
        rw [happ]
        exact ⟨t, hlh, le_refl t⟩
      · exfalso
        have hx : occupiedB (cleaner_tick timeout now s) = true := hheld'
        rw [h] at hx
        simp [occupiedB, clearedState] at hx
    | telemetry hid ra ts up cpu mem dsk osv now =>
      exact ⟨t, hlh, le_refl t⟩
  · intro s0 u tgt pm ph pe now1 now2 hfree hlt
    rw [start_free s0 u tgt pm ph pe now1 hfree]
    refine ⟨?_, rfl, rfl, rfl⟩
    simp [heartbeat, occupiedB]

/-- Witness for C8: a renew by the holder advances the heartbeat, and the
concrete Acquire-then-Renew run updates only the heartbeat field. -/
theorem heartbeat_monotone_frame_witness :
    (∃ t', (applyOp (Op.renew (some "alice") 7) occSample).last_heartbeat =
      some (TSVal.good t') ∧ (0 : Int) ≤ t') ∧
    heartbeat (start clearedState "alice" "M31" none none none 1).2
        (some "alice") 2 =
      (HbOut.ok, { (start clearedState "alice" "M31" none none none 1).2 with
        last_heartbeat := some (TSVal.good 2) }) :=
  ⟨heartbeat_monotone_frame.1 (Op.renew (some "alice") 7) occSample 0 rfl
      (by decide) rfl (show (0 : Int) ≤ 7 by decide),
    (heartbeat_monotone_frame.2 clearedState "alice" "M31" none none none 1 2
      rfl (by decide)).1⟩

/-! ### C9: release clears host telemetry -/

/-- Claim C9: both manual release and the sweeper-triggered stale release
clear the whole stored state — including the `hosts` telemetry mapping —
before setting `occupied = false`; telemetry reported before a release
does not survive it. -/
theorem release_clears_hosts (s : St) (timeout now t : Int)
    (hocc : occupiedB s = true)
    (hlh : s.last_heartbeat = some (TSVal.good t))
    (hstale : now - t > timeout) :
    (release s).2.hosts = none ∧
    (∀ (hid : Option String) (ra : String) (ts : Option TSVal)
        (up : Option Int) (cpu mem dsk : Option ℚ) (osv : Option String)
        (tnow : Int),
      (release (host_status s hid ra ts up cpu mem dsk osv tnow)).2.hosts =
        none) ∧
    cleaner_tick timeout now s = clearedState ∧
    clearedState.hosts = none := by
  refine ⟨rfl, fun _ _ _ _ _ _ _ _ _ => rfl, ?_, rfl⟩
  simp [cleaner_tick, hocc, hlh, truthyTS, TSVal.truthy, parseTS, hstale]

/-- Witness for C9 on the stale occupied sample at timeout 90. -/
theorem release_clears_hosts_witness :
    (release occSample).2.hosts = none ∧
    cleaner_tick 90 200 occSample = clearedState :=
  ⟨(release_clears_hosts occSample 90 200 0 rfl rfl (by decide)).1,
    (release_clears_hosts occSample 90 200 0 rfl rfl (by decide)).2.2.1⟩

/-! ### C10: the sweeper never releases without a stored heartbeat -/

/-- Claim C10: when the state is occupied but the stored `last_heartbeat`
is absent (or an empty string), a sweeper tick leaves the state unchanged
for every timeout and clock reading, so the lease stays occupied across
any sequence of ticks unless released explicitly. -/
theorem sweeper_ignores_missing_heartbeat (s : St)
    (_hocc : occupiedB s = true)
    (hlh : truthyTS s.last_heartbeat = false) :
    (∀ timeout now, cleaner_tick timeout now s = s) ∧
    (∀ ticks : List (Int × Int),
      ticks.foldl (fun st p => cleaner_tick p.1 p.2 st) s = s) := by
  have h1 : ∀ timeout now, cleaner_tick timeout now s = s := by
    intro timeout now
    simp [cleaner_tick, hlh]
  refine ⟨h1, ?_⟩
  intro ticks
  induction ticks with
  | nil => rfl
  | cons p rest ih =>
    simp only [List.foldl_cons, h1, ih]

/-- Witness for C10: an occupied state lacking the heartbeat key survives
a far-future sweeper tick. -/
theorem sweeper_ignores_missing_heartbeat_witness :
    cleaner_tick 90 1000000 occNoHb = occNoHb :=
  (sweeper_ignores_missing_heartbeat occNoHb rfl rfl).1 90 1000000

end ObsPresence
